import Mathlib

/-!
Verification development for the NIP-46 remote signer manager of
`snippets/nip46-remote-signer/remote-signer.ts`.

The TypeScript class `RemoteSignerManager` is shallowly embedded as pure
functions over an explicit `Manager` record.  Asynchronous control flow is
embedded by passing the outcome of each awaited round trip (`RTO`) as an
explicit argument; JavaScript timers are represented by the rule that a
timer for a request id is armed exactly while that id is in the pending
map (the code clears the timer at every point where it removes the entry,
and the timer callback removes its own entry, lines 418-419, 459-462, and
366-368 of the source).  `localStorage` is a single explicit slot.
Decryption plus JSON parsing of an inbound payload is an oracle
`String → String → String → Option Msg`; `none` models the catch branch
(decryption failure or unparseable plaintext).
-/

namespace GittrRemoteSigner

/-! ## Character and string helpers (JS string primitives used by the code) -/

/-- ASCII whitespace as trimmed by `String.prototype.trim` (the inputs in
scope contain only these whitespace characters). -/
def isWsChar (c : Char) : Bool :=
  c == ' ' || c == '\t' || c == '\n' || c == '\r'

/-- JS `String.prototype.trim` on the character list. -/
def trimChars (l : List Char) : List Char :=
  ((l.dropWhile isWsChar).reverse.dropWhile isWsChar).reverse

/-- JS `String.prototype.split(sep)` for a single-character separator:
always returns a non-empty list of (possibly empty) segments. -/
def splitOnChar (sep : Char) : List Char → List (List Char)
  | [] => [[]]
  | c :: rest =>
    if c = sep then [] :: splitOnChar sep rest
    else
      match splitOnChar sep rest with
      | [] => [[c]]
      | h :: t => (c :: h) :: t

/-- Join segments with a separator (inverse of `splitOnChar` on
separator-free segments). -/
def joinSep (sep : Char) : List (List Char) → List Char
  | [] => []
  | [x] => x
  | x :: y :: xs => x ++ sep :: joinSep sep (y :: xs)

/-- Numeric value of a hex digit, if any. -/
def hexVal (c : Char) : Option Nat :=
  if 48 ≤ c.toNat ∧ c.toNat ≤ 57 then some (c.toNat - 48)
  else if 97 ≤ c.toNat ∧ c.toNat ≤ 102 then some (c.toNat - 97 + 10)
  else if 65 ≤ c.toNat ∧ c.toNat ≤ 70 then some (c.toNat - 65 + 10)
  else none

/-- Hex-digit test (used only to state spec-side well-formedness and
side conditions; the source never validates hexness). -/
def isHexDigit (c : Char) : Bool := (hexVal c).isSome

/-- The forgiving application/x-www-form-urlencoded decoder used by
`URLSearchParams`: `+` becomes a space, `%XX` with two hex digits becomes
the byte value, anything else is kept as is.  Multi-byte UTF-8 percent
sequences are not recombined; every input in this development is
escape-free, where the decoder is the identity. -/
def pctDecode : List Char → List Char
  | [] => []
  | c :: rest =>
    if c = '+' then ' ' :: pctDecode rest
    else if c = '%' then
      match rest with
      | h1 :: h2 :: rest2 =>
        match hexVal h1, hexVal h2 with
        | some v1, some v2 => Char.ofNat (16 * v1 + v2) :: pctDecode rest2
        | _, _ => '%' :: h1 :: h2 :: pctDecode rest2
      | _ => '%' :: rest
    else c :: pctDecode rest

/-- One `&`-separated segment of a query string, as interpreted by
`URLSearchParams`: an empty segment is skipped, a segment is split at its
first `=` (no `=` means an empty value), and key and value are
form-decoded. -/
def queryPiece (piece : List Char) : Option (List Char × List Char) :=
  if piece = [] then none
  else
    match splitOnChar '=' piece with
    | [] => none
    | [k] => some (pctDecode k, [])
    | k :: vs => some (pctDecode k, pctDecode (joinSep '=' vs))

/-- `new URLSearchParams(query)`: split on `&` and interpret each
segment. -/
def parseQuery (q : List Char) : List (List Char × List Char) :=
  (splitOnChar '&' q).filterMap queryPiece

/-- `URLSearchParams.getAll(key)`. -/
def getAllQ (key : List Char) (ps : List (List Char × List Char)) : List (List Char) :=
  (ps.filter fun kv => kv.1 == key).map fun kv => kv.2

/-- `URLSearchParams.get(key)` (first match or null). -/
def getQ (key : List Char) (ps : List (List Char × List Char)) : Option (List Char) :=
  (ps.find? fun kv => kv.1 == key).map fun kv => kv.2

/-- `x || undefined` on a JS string-or-null: empty and absent collapse to
`none`. -/
def orUndefC (o : Option (List Char)) : Option (List Char) :=
  match o with
  | some v => if v.isEmpty then none else some v
  | none => none

/-- `String.prototype.toLowerCase` restricted to ASCII (identity on every
other character; all keys in scope are ASCII hex). -/
def asciiLower (c : Char) : Char :=
  if 65 ≤ c.toNat ∧ c.toNat ≤ 90 then Char.ofNat (c.toNat + 32) else c

/-- Lowercase a string, ASCII-wise. -/
def lowerStr (s : String) : String := ⟨s.data.map asciiLower⟩

/-- JS truthiness of a string-valued field that may be absent
(`undefined`) or empty — both are falsy. -/
def jsTruthyS (o : Option String) : Bool :=
  match o with
  | none => false
  | some s => !(s == "")

/-! ## Pairing URI parser (`parseRemoteSignerUri`, lines 110-162) -/

/-- `RemoteSignerConfig` (lines 56-62). -/
structure RemoteSignerConfig where
  remotePubkey : String
  relays : List String
  secret : Option String
  permissions : Option (List String)
  label : Option String
deriving DecidableEq, Repr

/-- Core of `parseRemoteSignerUri` on the character list of the input.
Errors are the thrown `Error` messages. -/
def parseCore (input : List Char) : Except String RemoteSignerConfig :=
  if input = [] then .error "Remote signer token required"
  else
    let trimmed := trimChars input
    if ("bunker://".data).isPrefixOf trimmed then
      let withoutScheme := trimmed.drop 9
      let parts := splitOnChar '?' withoutScheme
      let pubkeyPart := parts.headD []
      let query := (parts.drop 1).headD []
      if pubkeyPart.length ≠ 64 then
        .error "Invalid bunker token: missing remote signer pubkey"
      else
        let params := parseQuery query
        let relays := ((getAllQ "relay".data params).map trimChars).filter fun r => !r.isEmpty
        if relays.isEmpty then .error "Remote signer token missing relay query param"
        else
          let secret := orUndefC (getQ "secret".data params)
          let label :=
            match orUndefC (getQ "name".data params) with
            | some v => some v
            | none => orUndefC (getQ "label".data params)
          .ok { remotePubkey := lowerStr ⟨pubkeyPart⟩,
                relays := relays.map fun r => ⟨r⟩,
                secret := secret.map fun s => ⟨s⟩,
                permissions := none,
                label := label.map fun s => ⟨s⟩ }
    else if ("nostrconnect://".data).isPrefixOf trimmed then
      let withoutScheme := trimmed.drop 15
      let parts := splitOnChar '?' withoutScheme
      let clientPubkey := parts.headD []
      let query := (parts.drop 1).headD []
      if clientPubkey.length ≠ 64 then
        .error "Invalid nostrconnect URI: missing client pubkey"
      else
        let params := parseQuery query
        let relays := ((getAllQ "relay".data params).map trimChars).filter fun r => !r.isEmpty
        if relays.isEmpty then .error "nostrconnect URI missing relay"
        else
          let secret := orUndefC (getQ "secret".data params)
          let permissions : Option (List (List Char)) :=
            match getQ "perms".data params with
            | none => none
            | some v =>
              some (((splitOnChar ',' v).map trimChars).filter fun p => !p.isEmpty)
          let label := orUndefC (getQ "name".data params)
          .ok { remotePubkey := lowerStr ⟨clientPubkey⟩,
                relays := relays.map fun r => ⟨r⟩,
                secret := secret.map fun s => ⟨s⟩,
                permissions := permissions.map fun ps => ps.map fun p => (⟨p⟩ : String),
                label := label.map fun s => ⟨s⟩ }
    else .error "Unsupported remote signer URI. Use bunker:// or nostrconnect://"

/-- `parseRemoteSignerUri` (lines 110-162). -/
def parseRemoteSignerUri (s : String) : Except String RemoteSignerConfig :=
  parseCore s.data

/-! ## Session record and session store (lines 64-74, 164-191)

A field that is absent in the parsed JSON (`undefined`) and a field that
is the empty string are observationally equal for everything the code
does with a loaded record (only JS-truthiness tests), so absence is
modelled as the empty string / empty list. -/

/-- `RemoteSignerSession` (lines 64-74). -/
structure RemoteSignerSession where
  remotePubkey : String
  relays : List String
  clientSecretKey : String
  clientPubkey : String
  userPubkey : String
  secret : Option String
  permissions : Option (List String)
  label : Option String
  lastConnected : Nat
deriving DecidableEq, Repr

/-- The raw content of the `localStorage` slot under `STORAGE_KEY`:
either a blob that `JSON.parse` rejects, or a parsed record. -/
inductive StoredBlob where
  | corrupt
  | record (s : RemoteSignerSession)
deriving DecidableEq, Repr

/-- `loadStoredRemoteSignerSession` (lines 164-178): parse failure is the
catch branch; then the three identity-bearing fields are tested for JS
truthiness only. -/
def loadStoredRemoteSignerSession (slot : Option StoredBlob) : Option RemoteSignerSession :=
  match slot with
  | none => none
  | some .corrupt => none
  | some (.record s) =>
    if s.remotePubkey == "" || s.clientSecretKey == "" || s.userPubkey == "" then none
    else some s

/-- `persistRemoteSignerSession` (lines 180-191): the new value of the
single storage slot (`removeItem` for `null`, `setItem` otherwise). -/
def persistRemoteSignerSession (s : Option RemoteSignerSession) : Option StoredBlob :=
  match s with
  | none => none
  | some s => some (.record s)

/-- Spec-side notion of a well-formed identity key: canonical 64-char hex.
Stated only to express the spec's "well-formed" (the source never checks
it). -/
def wellFormedKey (s : String) : Bool :=
  s.data.length == 64 && s.data.all isHexDigit

/-! ## Manager state, effects, and operations (class `RemoteSignerManager`) -/

/-- A JSON value carried in a response `result`, as far as the code
inspects it: a string, or anything else (`typeof result === "string"` is
the only discrimination performed, line 280 and 316). -/
inductive JSV where
  | str (s : String)
  | other
deriving DecidableEq, Repr

/-- A decrypted `{id, result?, error?}` response payload (line 413-414);
each field may be absent. -/
structure Msg where
  id : Option String
  error : Option String
  result : Option JSV
deriving DecidableEq, Repr

/-- An inbound transport event as far as `handleIncomingEvent` inspects
it (`tags` may be absent: the code uses `event.tags?.`). -/
structure NEvent where
  kind : Nat
  pubkey : String
  content : String
  tags : Option (List (List String))
deriving DecidableEq, Repr

/-- `RemoteSignerState` (line 76). -/
inductive RState where
  | idle
  | connecting
  | ready
  | error
deriving DecidableEq, Repr

/-- The mutable fields of `RemoteSignerManager` that the claims observe,
plus the `localStorage` slot.  `pending` holds the keys of the
`Map<string, PendingRequest>`; the resolve/reject callbacks are modelled
through `Eff`.  `subscribed` is the client pubkey filter of the live
subscription (`none` when unsubscribed), `adapterApplied` whether
`window.nostr` currently holds the NIP-07 adapter. -/
structure Manager where
  session : Option RemoteSignerSession
  state : RState
  pending : List String
  storage : Option StoredBlob
  subscribed : Option String
  adapterApplied : Bool
  lastError : Option String
deriving DecidableEq, Repr

/-- Externally visible effects of one operation: `sends` are the
`deps.publish` calls (method and params of the encrypted request,
line 456), `rejected`/`resolved` the settled pending promises (request id
with reason/value), `writes` the storage writes performed via
`persistRemoteSignerSession`. -/
structure Eff where
  sends : List (String × List String)
  rejected : List (String × String)
  resolved : List (String × Option JSV)
  writes : List (Option RemoteSignerSession)
deriving DecidableEq, Repr

/-- The empty effect. -/
def Eff.nil : Eff := ⟨[], [], [], []⟩

/-- Concatenate effects of sequential operations. -/
def Eff.app (a b : Eff) : Eff :=
  ⟨a.sends ++ b.sends, a.rejected ++ b.rejected,
   a.resolved ++ b.resolved, a.writes ++ b.writes⟩

/-- The rejection reason used by `clearSession` (line 368). -/
def disconnectReason : String := "Remote signer disconnected"

/-- The rejection reason of the request timeout (line 461). -/
def timeoutMsg (method : String) : String :=
  "Remote signer request " ++ method ++ " timed out"

/-- `notifyState` (lines 347-351): sets `state` and `lastError`. -/
def notifyState (st : RState) (msg : Option String) (m : Manager) : Manager :=
  { m with state := st, lastError := msg }

/-- The synchronous part of `sendRequest` (lines 436-464): publish the
encrypted `{id, method, params}` event and register the pending entry
(with its timer).  The awaited part is `completeRequest`. -/
def sendRequestStart (method : String) (params : List String) (id : String)
    (m : Manager) : Manager × Eff :=
  ({ m with pending := id :: m.pending }, ⟨[(method, params)], [], [], []⟩)

/-- Outcome of one awaited round trip: the timer fired first, or a
response correlated to the request's id arrived with a truthy `error`, or
with a `result`. -/
inductive RTO where
  | timeout
  | respError (e : String)
  | respOk (v : Option JSV)
deriving DecidableEq, Repr

/-- Completion of an in-flight request: either the timeout callback
(lines 459-462: delete the entry, reject with the timeout message) or the
correlated-response branch of `handleIncomingEvent` (lines 418-424:
delete the entry, clear the timer, reject on truthy `error`, else
resolve).  The returned `Except` is the value the awaiting caller sees. -/
def completeRequest (method id : String) (o : RTO) (m : Manager) :
    Manager × Eff × Except String (Option JSV) :=
  match o with
  | .timeout =>
    ({ m with pending := m.pending.erase id },
     ⟨[], [(id, timeoutMsg method)], [], []⟩, .error (timeoutMsg method))
  | .respError e =>
    ({ m with pending := m.pending.erase id }, ⟨[], [(id, e)], [], []⟩, .error e)
  | .respOk v =>
    ({ m with pending := m.pending.erase id }, ⟨[], [], [(id, v)], []⟩, .ok v)

/-- The timeout callback alone (lines 459-462).  A JS timer for `id` is
armed exactly while `id` is pending, so this fires only under that
precondition (enforced in `Step`). -/
def timeoutFire (method id : String) (m : Manager) : Manager × Eff :=
  ({ m with pending := m.pending.erase id },
   ⟨[], [(id, timeoutMsg method)], [], []⟩)

/-- `handleIncomingEvent` (lines 403-428).  `decrypt sk senderPk content`
is the oracle for `nip04.decrypt` followed by `JSON.parse`; `none` is the
catch branch (line 425): the message is logged and dropped. -/
def handleIncomingEvent (decrypt : String → String → String → Option Msg)
    (m : Manager) (ev : NEvent) : Manager × Eff :=
  match m.session with
  | none => (m, Eff.nil)
  | some s =>
    if ev.kind ≠ 24133 then (m, Eff.nil)
    else
      match ev.tags with
      | none => (m, Eff.nil)
      | some tags =>
        let pTags := (tags.filter fun t => t.headD "" == "p").map fun t => (t.drop 1).head?
        if !(pTags.contains (some s.clientPubkey)) then (m, Eff.nil)
        else
          match decrypt s.clientSecretKey ev.pubkey ev.content with
          | none => (m, Eff.nil)
          | some msg =>
            match msg.id with
            | none => (m, Eff.nil)
            | some mid =>
              if mid == "" then (m, Eff.nil)
              else if m.pending.contains mid then
                let m2 := { m with pending := m.pending.erase mid }
                if jsTruthyS msg.error then
                  (m2, ⟨[], [(mid, msg.error.getD "")], [], []⟩)
                else (m2, ⟨[], [], [(mid, msg.result)], []⟩)
              else (m, Eff.nil)

/-- `clearSession` (lines 361-378): drop the in-memory session, clear the
storage slot, tear down the subscription, reject every pending request
with the disconnect reason and empty the pending map, restore
`window.nostr`. -/
def clearSession (m : Manager) : Manager × Eff :=
  ({ m with session := none, storage := none, pending := [],
            subscribed := none, adapterApplied := false },
   ⟨[], m.pending.map fun i => (i, disconnectReason), [], [none]⟩)

/-- `disconnect` (lines 304-307). -/
def disconnect (m : Manager) : Manager × Eff :=
  let r := clearSession m
  (notifyState .idle none r.1, r.2)

/-- `activateSession` followed by `notifyState("ready")` (lines 353-359
and the call sites 236, 287): set the session, persist it, (re)activate
the subscription, install the NIP-07 adapter. -/
def activateReady (s : RemoteSignerSession) (m : Manager) : Manager × Eff :=
  ({ m with session := some s, storage := persistRemoteSignerSession (some s),
            subscribed := some s.clientPubkey, adapterApplied := true,
            state := .ready, lastError := none },
   ⟨[], [], [], [some s]⟩)

/-- The catch branch of `connect` (lines 293-298): `clearSession` then
`notifyState("error", error?.message || "Remote signer pairing failed")`. -/
def connectTeardown (errMsg : String) (m : Manager) : Manager × Eff :=
  let r := clearSession m
  (notifyState .error
     (some (if errMsg == "" then "Remote signer pairing failed" else errMsg)) r.1,
   r.2)

/-- `bootstrapFromStorage` (lines 230-242), success path: a valid stored
record is activated directly; no request is issued.  (The catch branch at
line 237 can only trigger if the injected `subscribe`/`addRelay`
callbacks throw; those are total here.) -/
def bootstrapFromStorage (m : Manager) : Manager × Eff :=
  match loadStoredRemoteSignerSession m.storage with
  | none => (m, Eff.nil)
  | some s => activateReady s m

/-- The session object built at the start of `connect` (lines 252-264). -/
def mkPairingSession (config : RemoteSignerConfig) (freshSecret : String)
    (getPub : String → String) (now : Nat) : RemoteSignerSession :=
  { remotePubkey := config.remotePubkey, relays := config.relays,
    clientSecretKey := freshSecret, clientPubkey := getPub freshSecret,
    userPubkey := "", secret := config.secret,
    permissions := config.permissions, label := config.label,
    lastConnected := now }

/-- The params of the `connect` request (lines 270-276). -/
def connectParams (s : RemoteSignerSession) : List String :=
  [s.remotePubkey]
    ++ (if jsTruthyS s.secret then [s.secret.getD ""] else [])
    ++ (match s.permissions with
        | some ps => if ps.length > 0 then [String.intercalate "," ps] else []
        | none => [])

/-- The synchronous part of `connect` (lines 247-277 up to the first
await of `sendRequest`): parse the URI (throwing before any state
change on a bad URI), notify `connecting`, build the pairing session,
activate the subscription for its client key, publish the `connect`
request and register it as pending.  Note that `this.session` is NOT
touched here: a previously active session stays in memory. -/
def connectStart (getPub : String → String) (freshSecret id1 : String) (now : Nat)
    (m : Manager) (uri : String) : Manager × Eff × Except String RemoteSignerSession :=
  match parseRemoteSignerUri uri with
  | .error e => (m, Eff.nil, .error e)
  | .ok config =>
    let s0 := mkPairingSession config freshSecret getPub now
    let m1 := notifyState .connecting none m
    let m2 := { m1 with subscribed := some s0.clientPubkey }
    let r := sendRequestStart "connect" (connectParams s0) id1 m2
    (r.1, r.2, .ok s0)

/-- `connect` (lines 247-299) as one big step, the outcomes of the two
round trips passed explicitly.  On any failure after the URI parse the
catch branch tears the session down; only after both round trips succeed
with a non-empty string pubkey is the session activated and persisted. -/
def connect (getPub : String → String) (freshSecret id1 id2 : String) (now : Nat)
    (r1 r2 : RTO) (m : Manager) (uri : String) :
    Manager × Eff × Except String RemoteSignerSession :=
  match connectStart getPub freshSecret id1 now m uri with
  | (m3, e3, .error e) => (m3, e3, .error e)
  | (m3, e3, .ok s0) =>
    match completeRequest "connect" id1 r1 m3 with
    | (m4, e4, .error err) =>
      let t := connectTeardown err m4
      (t.1, (e3.app e4).app t.2, .error err)
    | (m4, e4, .ok _) =>
      let r5 := sendRequestStart "get_public_key" [] id2 m4
      match completeRequest "get_public_key" id2 r2 r5.1 with
      | (m7, e7, .error err) =>
        let t := connectTeardown err m7
        (t.1, (((e3.app e4).app r5.2).app e7).app t.2, .error err)
      | (m7, e7, .ok v) =>
        match v with
        | some (.str s) =>
          if s == "" then
            let t := connectTeardown "Remote signer did not return a pubkey" m7
            (t.1, (((e3.app e4).app r5.2).app e7).app t.2,
             .error "Remote signer did not return a pubkey")
          else
            let s1 := { s0 with userPubkey := lowerStr s, lastConnected := now }
            let a := activateReady s1 m7
            (a.1, (((e3.app e4).app r5.2).app e7).app a.2, .ok s1)
        | _ =>
          let t := connectTeardown "Remote signer did not return a pubkey" m7
          (t.1, (((e3.app e4).app r5.2).app e7).app t.2,
           .error "Remote signer did not return a pubkey")

/-- The synchronous part of every capability operation (`signEvent`,
`nip04Encrypt`, `nip04Decrypt`, `nip44Encrypt`, `nip44Decrypt`,
lines 312-338): `requireSession` (lines 340-345) throws
"Remote signer not paired" when no session is in memory, otherwise the
request is published and registered.  The third component is the thrown
error, if any. -/
def capabilityStart (method : String) (params : List String) (id : String)
    (m : Manager) : Manager × Eff × Option String :=
  match m.session with
  | none => (m, Eff.nil, some "Remote signer not paired")
  | some _ =>
    let r := sendRequestStart method params id m
    (r.1, r.2, none)

/-- The adapter's `getPublicKey` (lines 481-487): reads
`session?.userPubkey` and throws on a falsy value; never publishes. -/
def adapterGetPublicKey (m : Manager) : Except String String :=
  match m.session with
  | none => .error "Remote signer not paired"
  | some s => if s.userPubkey == "" then .error "Remote signer not paired" else .ok s.userPubkey

/-- A fresh manager (constructor, lines 196-212) over a given initial
storage slot. -/
def initManager (slot : Option StoredBlob) : Manager :=
  { session := none, state := .idle, pending := [], storage := slot,
    subscribed := none, adapterApplied := false, lastError := none }

/-- One atomic step of the event-driven system: each constructor is one
of the embedded operations (for the timer, guarded by the armed-timer
condition). -/
inductive Step : Manager → Manager → Prop where
  | connectStartStep (g : String → String) (f i : String) (n : Nat) (uri : String)
      (m : Manager) : Step m (connectStart g f i n m uri).1
  | completeStep (method id : String) (o : RTO) (m : Manager) :
      Step m (completeRequest method id o m).1
  | teardownStep (e : String) (m : Manager) : Step m (connectTeardown e m).1
  | activateStep (s : RemoteSignerSession) (m : Manager) :
      Step m (activateReady s m).1
  | disconnectStep (m : Manager) : Step m (disconnect m).1
  | bootstrapStep (m : Manager) : Step m (bootstrapFromStorage m).1
  | handleStep (d : String → String → String → Option Msg) (ev : NEvent)
      (m : Manager) : Step m (handleIncomingEvent d m ev).1
  | timeoutStep (method id : String) (m : Manager) (h : id ∈ m.pending) :
      Step m (timeoutFire method id m).1
  | capStep (method : String) (params : List String) (id : String) (m : Manager) :
      Step m (capabilityStart method params id m).1

/-- Managers reachable from a fresh instance over some initial storage. -/
def Reachable (slot : Option StoredBlob) (m : Manager) : Prop :=
  Relation.ReflTransGen Step (initManager slot) m

/-- A handshake round-trip pair that fails pairing: the first round times
out or errors, or the second round times out, errors, or returns anything
but a non-empty string (line 280-281). -/
def validPubkeyResult : Option JSV → Bool
  | some (.str s) => !(s == "")
  | _ => false

/-- Predicate: this pair of round-trip outcomes makes `connect` fail. -/
def handshakeFails (r1 r2 : RTO) : Bool :=
  (match r1 with | .respOk _ => false | _ => true) ||
  (match r2 with | .respOk v => !(validPubkeyResult v) | _ => true)

/-- A character that passes through a query string untouched: not a
separator (`&`, `=`, `?`), not subject to form-decoding (`%`, `+`), and
not trimmed (no whitespace).  A URI built only from such characters (and
the scheme syntax) carries its key and endpoint strings verbatim. -/
def urlPlainChar (c : Char) : Bool :=
  !(c == '&' || c == '=' || c == '%' || c == '+' || c == '?') && !(isWsChar c)

/-- The query segment `relay=<r>` of a bunker URI. -/
def relayKV (r : List Char) : List Char := "relay=".data ++ r

/-- A first-scheme (bunker) pairing URI carrying a remote identity key
and a list of endpoint addresses. -/
def bunkerUriOf (pk : List Char) (relays : List (List Char)) : List Char :=
  "bunker://".data ++ pk ++ '?' :: joinSep '&' (relays.map relayKV)

/-! ## Concrete fixtures used by witnesses and counterexamples -/

/-- A fully populated session record. -/
def sesW : RemoteSignerSession :=
  ⟨"remotekey", ["wss://r.example"], "csk", "cpk", "userkey", none, none, none, 5⟩

/-- A stored record with a malformed (non-hex, non-canonical-length) but
non-empty remote identity key. -/
def badStored : RemoteSignerSession :=
  ⟨"zz", [], "aa", "", "bb", none, none, none, 0⟩

/-- A manager with two legitimate requests pending on an active session. -/
def mTwoPending : Manager :=
  { session := some sesW, state := .ready, pending := ["req1", "req2"],
    storage := some (.record sesW), subscribed := some "cpk",
    adapterApplied := true, lastError := none }

/-- A stand-in for `getPublicKey` of nostr-tools. -/
def gpFun : String → String := fun _ => "clientpub"

/-- A valid bunker pairing URI with a lowercase 64-hex remote key. -/
def uriW : String :=
  "bunker://aaaaaaaaaaaaaaaaaaaaaaaaaaaaaaaaaaaaaaaaaaaaaaaaaaaaaaaaaaaaaaaa?relay=wss://r.example"

/-- The same pairing URI with the remote key spelled in uppercase hex. -/
def uriUpper : String :=
  "bunker://AAAAAAAAAAAAAAAAAAAAAAAAAAAAAAAAAAAAAAAAAAAAAAAAAAAAAAAAAAAAAAAA?relay=wss://r.example"

/-- A 64-hex user pubkey returned by the remote signer in fixtures. -/
def userKeyW : String :=
  "bbbbbbbbbbbbbbbbbbbbbbbbbbbbbbbbbbbbbbbbbbbbbbbbbbbbbbbbbbbbbbbb"

/-- Manager captured mid-pairing: the synchronous part of a first
`connect()` call has run, so the state is `connecting` and the `connect`
request is in flight. -/
def mConnecting : Manager :=
  (connectStart gpFun "sec1" "i1" 0 (initManager none) uriW).1

/-- Manager after a fully successful pairing run (both round trips
succeeded). -/
def mReady : Manager :=
  (connect gpFun "s1" "i1" "i2" 0 (.respOk none)
     (.respOk (some (.str userKeyW))) (initManager none) uriW).1

/-- Manager where `connect()` was called again while `Ready`: the state
is `connecting` but the previously paired session is still in memory
(`connect` never clears `this.session` before `activateSession`). -/
def mStale : Manager :=
  (connectStart gpFun "s2" "i3" 0 mReady uriW).1

/-! ## C6 — teardown rejects all pending with one reason and empties the set -/

/-- C6: on every session teardown — explicit `disconnect()` or the catch
branch of a failed pairing — every still-pending request is rejected with
the same terminal reason ("Remote signer disconnected") and the pending
set is emptied, so no caller is left waiting. -/
theorem teardown_rejects_all_pending (m : Manager) (e : String) :
    (disconnect m).1.pending = [] ∧
    (disconnect m).1.session = none ∧
    (disconnect m).1.state = .idle ∧
    (disconnect m).2.rejected = (m.pending.map fun i => (i, disconnectReason)) ∧
    (connectTeardown e m).1.pending = [] ∧
    (connectTeardown e m).1.session = none ∧
    (connectTeardown e m).1.state = .error ∧
    (connectTeardown e m).2.rejected = (m.pending.map fun i => (i, disconnectReason)) :=
  ⟨rfl, rfl, rfl, rfl, rfl, rfl, rfl, rfl⟩

/-! ## C3 — bootstrapFromStorage restores without re-issuing the handshake -/

/-- C3: for every valid stored session record, `bootstrapFromStorage`
restores it and reaches `Ready` with no transport send at all (the
`sends` effect is empty — neither `connect` nor `get_public_key` is
issued); only the subscription is re-activated. -/
theorem bootstrap_restores_without_handshake (m : Manager) (s : RemoteSignerSession)
    (h : loadStoredRemoteSignerSession m.storage = some s) :
    bootstrapFromStorage m =
      ({ m with session := some s, storage := some (.record s),
                subscribed := some s.clientPubkey, adapterApplied := true,
                state := .ready, lastError := none },
       ⟨[], [], [], [some s]⟩) := by
  unfold bootstrapFromStorage
  rw [h]
  rfl

/-- Witness for C3 at a concrete stored record. -/
theorem bootstrap_restores_without_handshake_witness :
    bootstrapFromStorage (initManager (some (.record sesW))) =
      ({ initManager (some (.record sesW)) with
           session := some sesW, storage := some (.record sesW),
           subscribed := some sesW.clientPubkey, adapterApplied := true,
           state := .ready, lastError := none },
       ⟨[], [], [], [some sesW]⟩) :=
  bootstrap_restores_without_handshake (initManager (some (.record sesW))) sesW rfl

/-! ## C5 — malformed or undecryptable inbound messages are dropped -/

/-- C5: when decryption (or parsing of the decrypted payload) of an
inbound message fails, `handleIncomingEvent` leaves the manager — in
particular the whole pending set — unchanged and settles nothing; the
catch branch at line 425 means the failure never escapes the receive
path, which the embedding renders by returning the unchanged state. -/
theorem malformed_inbound_is_dropped (d : String → String → String → Option Msg)
    (m : Manager) (ev : NEvent)
    (hd : ∀ sk pk ct, d sk pk ct = none) :
    handleIncomingEvent d m ev = (m, Eff.nil) := by
  unfold handleIncomingEvent
  split
  · rfl
  · split
    · rfl
    · cases ev.tags with
      | none => rfl
      | some tags => simp [hd]

/-- Witness for C5: a malformed message arriving while two legitimate
requests are pending leaves both pending. -/
theorem malformed_inbound_is_dropped_witness :
    handleIncomingEvent (fun _ _ _ => none) mTwoPending
        ⟨24133, "remotekey", "garbage", some [["p", "cpk"]]⟩ =
      (mTwoPending, Eff.nil) ∧ mTwoPending.pending = ["req1", "req2"] :=
  ⟨malformed_inbound_is_dropped (fun _ _ _ => none) mTwoPending
      ⟨24133, "remotekey", "garbage", some [["p", "cpk"]]⟩ (fun _ _ _ => rfl),
   rfl⟩

/-! ## C9 — what the session store actually validates on load -/

/-- C9 counterexample: a stored record whose remote identity key is the
non-empty but malformed string "zz" (wrong length, non-hex) is returned
as a usable session, so "absent or not well-formed implies none" is
false as stated — only truthiness is checked. -/
theorem load_surfaces_malformed_record :
    loadStoredRemoteSignerSession (some (.record badStored)) = some badStored ∧
    wellFormedKey badStored.remotePubkey = false :=
  ⟨rfl, by decide⟩

/-- C9 amended: `loadStoredRemoteSignerSession` returns `none` exactly
when the slot is empty, the blob fails to parse, or one of the three
identity-bearing fields is absent/empty (JS-falsy); no well-formedness
validation beyond non-emptiness is performed. -/
theorem load_none_iff_absent_or_empty (slot : Option StoredBlob) :
    loadStoredRemoteSignerSession slot = none ↔
      (slot = none ∨ slot = some .corrupt ∨
       ∃ s, slot = some (.record s) ∧
         (s.remotePubkey = "" ∨ s.clientSecretKey = "" ∨ s.userPubkey = "")) := by
  cases slot with
  | none => simp [loadStoredRemoteSignerSession]
  | some b =>
    cases b with
    | corrupt => simp [loadStoredRemoteSignerSession]
    | record s =>
      simp only [loadStoredRemoteSignerSession]
      constructor
      · intro h
        refine Or.inr (Or.inr ⟨s, rfl, ?_⟩)
        by_cases h1 : s.remotePubkey = ""
        · exact Or.inl h1
        by_cases h2 : s.clientSecretKey = ""
        · exact Or.inr (Or.inl h2)
        by_cases h3 : s.userPubkey = ""
        · exact Or.inr (Or.inr h3)
        · exfalso
          rw [if_neg (by simp [h1, h2, h3])] at h
          exact Option.some_ne_none s h
      · rintro (h | h | ⟨t, ht, hf⟩)
        · exact absurd h (by simp)
        · exact absurd h (by simp)
        · have hst : s = t := StoredBlob.record.inj (Option.some.inj ht)
          subst hst
          rw [if_pos]
          rcases hf with h | h | h <;> simp [h]

/-! ## C1 — every pending request is settled exactly once -/

/-- C1: a pending entry is removed exactly once, by its timeout or by a
matching response, never both.  (a) The timeout path removes the entry
and rejects the awaiting caller with the Timeout reason, after which the
id is no longer pending.  (b) A response for an id that is no longer
pending is a no-op: the manager is unchanged and nothing is resolved or
rejected.  (c) A matching response for a pending id removes the entry
(clearing its timer, so the timer — armed only while pending, see
`Step.timeoutStep` — can no longer fire) and settles the caller exactly
once. -/
theorem pending_settled_exactly_once (m : Manager) (id method : String)
    (d : String → String → String → Option Msg) (ev : NEvent) :
    (id ∈ m.pending → m.pending.Nodup →
       (timeoutFire method id m).1.pending = m.pending.erase id ∧
       id ∉ (timeoutFire method id m).1.pending ∧
       (timeoutFire method id m).2.rejected = [(id, timeoutMsg method)] ∧
       (timeoutFire method id m).2.resolved = []) ∧
    (∀ s msg, m.session = some s →
       d s.clientSecretKey ev.pubkey ev.content = some msg →
       msg.id = some id → id ∉ m.pending →
       handleIncomingEvent d m ev = (m, Eff.nil)) ∧
    (∀ s msg tags, m.session = some s →
       ev.kind = 24133 → ev.tags = some tags →
       ((tags.filter fun t => t.headD "" == "p").map
           fun t => (t.drop 1).head?).contains (some s.clientPubkey) = true →
       d s.clientSecretKey ev.pubkey ev.content = some msg →
       msg.id = some id → id ≠ "" → id ∈ m.pending → m.pending.Nodup →
       (handleIncomingEvent d m ev).1.pending = m.pending.erase id ∧
       id ∉ (handleIncomingEvent d m ev).1.pending ∧
       (handleIncomingEvent d m ev).2.resolved.length +
         (handleIncomingEvent d m ev).2.rejected.length = 1) := by
  refine ⟨?_, ?_, ?_⟩
  · intro hmem hnd
    exact ⟨rfl, hnd.not_mem_erase, rfl, rfl⟩
  · intro s msg hses hdec hid hnot
    have hcontains : m.pending.contains id = false := by
      simp only [List.contains, List.elem_eq_mem]
      simpa using hnot
    unfold handleIncomingEvent
    simp only [hses, hdec, hid]
    split
    · rfl
    · cases ev.tags with
      | none => rfl
      | some tags => simp [hnot]
  · intro s msg tags hses hkind htags hptag hdec hid hne hmem hnd
    have hcontains : m.pending.contains id = true := by
      simp only [List.contains, List.elem_eq_mem]
      simpa using hmem
    have hk2 : ¬(ev.kind ≠ 24133) := by simp [hkind]
    have hne2 : ¬((id == "") = true) := by simp [hne]
    have hp2 : ¬((!((tags.filter fun t => t.headD "" == "p").map
        fun t => (t.drop 1).head?).contains (some s.clientPubkey)) = true) := by
      rw [hptag]
      decide
    unfold handleIncomingEvent
    simp only [hses, htags, hdec, hid, if_neg hk2, if_neg hp2, if_neg hne2,
      if_pos hcontains]
    split <;> exact ⟨rfl, hnd.not_mem_erase, rfl⟩

/-- Witness for C1 at a concrete manager with two pending requests. -/
theorem pending_settled_exactly_once_witness :
    (timeoutFire "sign_event" "req1" mTwoPending).1.pending =
        mTwoPending.pending.erase "req1" ∧
    "req1" ∉ (timeoutFire "sign_event" "req1" mTwoPending).1.pending ∧
    (timeoutFire "sign_event" "req1" mTwoPending).2.rejected =
        [("req1", timeoutMsg "sign_event")] ∧
    (timeoutFire "sign_event" "req1" mTwoPending).2.resolved = [] :=
  (pending_settled_exactly_once mTwoPending "req1" "sign_event"
      (fun _ _ _ => none) ⟨0, "", "", none⟩).1 (by decide) (by decide)

/-! ## C2 / C10 — what a failed pairing handshake does -/

/-- Every failure path of `connect` (first round times out or errors, or
second round times out, errors, or yields no usable pubkey) runs the
catch branch: `Error` state, in-memory session and storage slot cleared,
all pending requests rejected with the disconnect reason, a thrown error,
and no session value ever written to storage. -/
theorem connect_failure_core (g : String → String) (f i1 i2 : String) (n : Nat)
    (r1 r2 : RTO) (m : Manager) (uri : String) (cfg : RemoteSignerConfig)
    (hp : parseRemoteSignerUri uri = .ok cfg)
    (hf : handshakeFails r1 r2 = true) :
    (connect g f i1 i2 n r1 r2 m uri).1.state = .error ∧
    (connect g f i1 i2 n r1 r2 m uri).1.session = none ∧
    (connect g f i1 i2 n r1 r2 m uri).1.pending = [] ∧
    (connect g f i1 i2 n r1 r2 m uri).1.storage = none ∧
    (∃ e, (connect g f i1 i2 n r1 r2 m uri).2.2 = Except.error e) ∧
    (∀ w ∈ (connect g f i1 i2 n r1 r2 m uri).2.1.writes, w = none) ∧
    (∀ p ∈ m.pending,
       (p, disconnectReason) ∈ (connect g f i1 i2 n r1 r2 m uri).2.1.rejected) := by
  simp only [connect, connectStart, hp]
  rcases r1 with _ | e1 | v1
  · simp only [completeRequest, connectTeardown, clearSession, notifyState,
      sendRequestStart, Eff.app, List.erase_cons_head]
    refine ⟨?_, ?_, ?_, ?_, ?_, ?_, ?_⟩ <;>
      first
        | trivial
        | exact ⟨_, rfl⟩
        | (intro w hw; simpa using hw)
        | (intro p hp2; exact List.mem_append_right _ (List.mem_map_of_mem _ hp2))
  · simp only [completeRequest, connectTeardown, clearSession, notifyState,
      sendRequestStart, Eff.app, List.erase_cons_head]
    refine ⟨?_, ?_, ?_, ?_, ?_, ?_, ?_⟩ <;>
      first
        | trivial
        | exact ⟨_, rfl⟩
        | (intro w hw; simpa using hw)
        | (intro p hp2; exact List.mem_append_right _ (List.mem_map_of_mem _ hp2))
  · rcases r2 with _ | e2 | v2
    · simp only [completeRequest, connectTeardown, clearSession, notifyState,
        sendRequestStart, Eff.app, List.erase_cons_head]
      refine ⟨?_, ?_, ?_, ?_, ?_, ?_, ?_⟩ <;>
        first
          | trivial
          | exact ⟨_, rfl⟩
          | (intro w hw; simpa using hw)
          | (intro p hp2; exact List.mem_append_right _ (List.mem_map_of_mem _ hp2))
    · simp only [completeRequest, connectTeardown, clearSession, notifyState,
        sendRequestStart, Eff.app, List.erase_cons_head]
      refine ⟨?_, ?_, ?_, ?_, ?_, ?_, ?_⟩ <;>
        first
          | trivial
          | exact ⟨_, rfl⟩
          | (intro w hw; simpa using hw)
          | (intro p hp2; exact List.mem_append_right _ (List.mem_map_of_mem _ hp2))
    · rcases v2 with _ | jv
      · simp only [completeRequest, connectTeardown, clearSession, notifyState,
          sendRequestStart, Eff.app, List.erase_cons_head]
        refine ⟨?_, ?_, ?_, ?_, ?_, ?_, ?_⟩ <;>
          first
            | trivial
            | exact ⟨_, rfl⟩
            | (intro w hw; simpa using hw)
            | (intro p hp2; exact List.mem_append_right _ (List.mem_map_of_mem _ hp2))
      · cases jv with
        | str s =>
          by_cases hs : (s == "") = true
          · simp only [completeRequest, connectTeardown, clearSession, notifyState,
              sendRequestStart, Eff.app, List.erase_cons_head, hs, if_true]
            refine ⟨?_, ?_, ?_, ?_, ?_, ?_, ?_⟩ <;>
              first
                | trivial
                | exact ⟨_, rfl⟩
                | (intro w hw; simpa using hw)
                | (intro p hp2; exact List.mem_append_right _ (List.mem_map_of_mem _ hp2))
          · exact absurd (by simpa [handshakeFails, validPubkeyResult] using hf) hs
        | other =>
          simp only [completeRequest, connectTeardown, clearSession, notifyState,
            sendRequestStart, Eff.app, List.erase_cons_head]
          refine ⟨?_, ?_, ?_, ?_, ?_, ?_, ?_⟩ <;>
            first
              | trivial
              | exact ⟨_, rfl⟩
              | (intro w hw; simpa using hw)
              | (intro p hp2; exact List.mem_append_right _ (List.mem_map_of_mem _ hp2))

/-- C2: every `connect(uri)` run whose pairing handshake fails (timeout,
remote error response, or no usable pubkey on either round trip) ends in
the `Error` state with the in-memory session cleared, every pending
request rejected, a thrown error, and no session record written to
durable storage (every storage write on the failure path is the clear). -/
theorem connect_failure_no_persist (g : String → String) (f i1 i2 : String) (n : Nat)
    (r1 r2 : RTO) (m : Manager) (uri : String) (cfg : RemoteSignerConfig)
    (hp : parseRemoteSignerUri uri = .ok cfg)
    (hf : handshakeFails r1 r2 = true) :
    (connect g f i1 i2 n r1 r2 m uri).1.state = .error ∧
    (connect g f i1 i2 n r1 r2 m uri).1.session = none ∧
    (connect g f i1 i2 n r1 r2 m uri).1.pending = [] ∧
    (∃ e, (connect g f i1 i2 n r1 r2 m uri).2.2 = Except.error e) ∧
    (∀ w ∈ (connect g f i1 i2 n r1 r2 m uri).2.1.writes, w = none) ∧
    (∀ p ∈ m.pending,
       (p, disconnectReason) ∈ (connect g f i1 i2 n r1 r2 m uri).2.1.rejected) := by
  have h := connect_failure_core g f i1 i2 n r1 r2 m uri cfg hp hf
  exact ⟨h.1, h.2.1, h.2.2.1, h.2.2.2.2.1, h.2.2.2.2.2.1, h.2.2.2.2.2.2⟩

/-- Witness for C2: a concrete failing run (second round times out) over
a manager that had one unrelated pending request. -/
theorem connect_failure_no_persist_witness :
    ((connect gpFun "sec1" "i1" "i2" 0 (.respOk none) .timeout
        { initManager none with pending := ["q0"] } uriW).1.state = .error ∧
     (connect gpFun "sec1" "i1" "i2" 0 (.respOk none) .timeout
        { initManager none with pending := ["q0"] } uriW).1.session = none ∧
     (connect gpFun "sec1" "i1" "i2" 0 (.respOk none) .timeout
        { initManager none with pending := ["q0"] } uriW).1.pending = [] ∧
     (∃ e, (connect gpFun "sec1" "i1" "i2" 0 (.respOk none) .timeout
        { initManager none with pending := ["q0"] } uriW).2.2 = Except.error e) ∧
     (∀ w ∈ (connect gpFun "sec1" "i1" "i2" 0 (.respOk none) .timeout
        { initManager none with pending := ["q0"] } uriW).2.1.writes, w = none) ∧
     (∀ p ∈ ({ initManager none with pending := ["q0"] } : Manager).pending,
        (p, disconnectReason) ∈ (connect gpFun "sec1" "i1" "i2" 0 (.respOk none) .timeout
          { initManager none with pending := ["q0"] } uriW).2.1.rejected)) :=
  connect_failure_no_persist gpFun "sec1" "i1" "i2" 0 (.respOk none) .timeout
    { initManager none with pending := ["q0"] } uriW
    { remotePubkey := "aaaaaaaaaaaaaaaaaaaaaaaaaaaaaaaaaaaaaaaaaaaaaaaaaaaaaaaaaaaaaaaa",
      relays := ["wss://r.example"], secret := none, permissions := none, label := none }
    rfl rfl

/-- C10: a failed pairing handshake clears the single durable storage
slot unconditionally — a previously persisted valid session record is
removed, not preserved. -/
theorem connect_failure_clears_stored_session (g : String → String)
    (f i1 i2 : String) (n : Nat) (r1 r2 : RTO) (m : Manager) (uri : String)
    (cfg : RemoteSignerConfig) (blob : StoredBlob)
    (hp : parseRemoteSignerUri uri = .ok cfg)
    (hf : handshakeFails r1 r2 = true)
    (hst : m.storage = some blob) :
    m.storage ≠ none ∧
    (connect g f i1 i2 n r1 r2 m uri).1.storage = none := by
  refine ⟨by simp [hst], ?_⟩
  exact (connect_failure_core g f i1 i2 n r1 r2 m uri cfg hp hf).2.2.2.1

/-- Witness for C10: a concrete failing `connect` over a manager whose
storage holds a previously persisted session. -/
theorem connect_failure_clears_stored_session_witness :
    ({ initManager (some (.record sesW)) with pending := [] } : Manager).storage ≠ none ∧
    (connect gpFun "sec1" "i1" "i2" 0 .timeout .timeout
       { initManager (some (.record sesW)) with pending := [] } uriW).1.storage = none :=
  connect_failure_clears_stored_session gpFun "sec1" "i1" "i2" 0 .timeout .timeout
    { initManager (some (.record sesW)) with pending := [] } uriW
    { remotePubkey := "aaaaaaaaaaaaaaaaaaaaaaaaaaaaaaaaaaaaaaaaaaaaaaaaaaaaaaaaaaaaaaaa",
      relays := ["wss://r.example"], secret := none, permissions := none, label := none }
    (.record sesW) rfl rfl rfl

/-! ## C4 — there is no AlreadyConnecting guard -/

/-- C4 counterexample: with the manager in the `Connecting` state (a
first pairing attempt in flight), a second `connect()` call does not
fail fast: it succeeds in starting a second pairing attempt — the URI is
parsed, a new pairing session is produced, and a second `connect`
request is published — instead of failing with an AlreadyConnecting
error. -/
theorem second_connect_not_failfast_cex :
    mConnecting.state = .connecting ∧
    (∃ s0, (connectStart gpFun "sec2" "i2" 0 mConnecting uriW).2.2 = .ok s0) ∧
    (connectStart gpFun "sec2" "i2" 0 mConnecting uriW).2.1.sends.length = 1 :=
  ⟨rfl, ⟨_, rfl⟩, rfl⟩

/-- C4 amended: `connect` consults no in-flight guard at all — its
synchronous part never reads the state field, so a call made while
`Connecting` behaves exactly as a call from any other state and starts a
new pairing attempt rather than failing fast. -/
theorem connectStart_ignores_state (g : String → String) (f i : String) (n : Nat)
    (m : Manager) (st : RState) (uri : String) (cfg : RemoteSignerConfig)
    (hp : parseRemoteSignerUri uri = .ok cfg) :
    connectStart g f i n { m with state := st } uri = connectStart g f i n m uri := by
  simp only [connectStart, hp]
  rfl

/-- Witness for the amended C4 at a concrete URI and state. -/
theorem connectStart_ignores_state_witness :
    connectStart gpFun "sec1" "i1" 0
        { initManager none with state := .connecting } uriW =
      connectStart gpFun "sec1" "i1" 0 (initManager none) uriW :=
  connectStart_ignores_state gpFun "sec1" "i1" 0 (initManager none) .connecting uriW
    { remotePubkey := "aaaaaaaaaaaaaaaaaaaaaaaaaaaaaaaaaaaaaaaaaaaaaaaaaaaaaaaaaaaaaaaa",
      relays := ["wss://r.example"], secret := none, permissions := none, label := none }
    rfl

/-! ## C7 — which operations are gated, and on what -/

/-- `handleIncomingEvent` only ever touches the pending set. -/
theorem handleIncomingEvent_preserves (d : String → String → String → Option Msg)
    (m : Manager) (ev : NEvent) :
    (handleIncomingEvent d m ev).1.state = m.state ∧
    (handleIncomingEvent d m ev).1.session = m.session := by
  simp only [handleIncomingEvent]
  repeat' split
  all_goals exact ⟨rfl, rfl⟩

/-- `capabilityStart` only ever touches the pending set. -/
theorem capabilityStart_preserves (method : String) (params : List String)
    (id : String) (m : Manager) :
    (capabilityStart method params id m).1.state = m.state ∧
    (capabilityStart method params id m).1.session = m.session := by
  unfold capabilityStart
  split <;> exact ⟨rfl, rfl⟩

/-- `completeRequest` only ever touches the pending set. -/
theorem completeRequest_preserves (method id : String) (o : RTO) (m : Manager) :
    (completeRequest method id o m).1.state = m.state ∧
    (completeRequest method id o m).1.session = m.session := by
  cases o <;> exact ⟨rfl, rfl⟩

/-- Every step keeps the invariant "in `Idle` or `Error` there is no
in-memory session". -/
theorem step_preserves_noSession {m m' : Manager} (h : Step m m')
    (ih : (m.state = .idle ∨ m.state = .error) → m.session = none) :
    (m'.state = .idle ∨ m'.state = .error) → m'.session = none := by
  cases h with
  | connectStartStep g f i n uri =>
    cases hp : parseRemoteSignerUri uri with
    | error e => simp only [connectStart, hp]; exact ih
    | ok cfg => simp [connectStart, hp, notifyState, sendRequestStart]
  | completeStep method id o =>
    intro hd
    rw [(completeRequest_preserves method id o m).2]
    exact ih (by rwa [(completeRequest_preserves method id o m).1] at hd)
  | teardownStep e => intro _; rfl
  | activateStep s =>
    intro hd
    rcases hd with hd | hd <;> simp [activateReady, notifyState] at hd
  | disconnectStep => intro _; rfl
  | bootstrapStep =>
    cases hl : loadStoredRemoteSignerSession m.storage with
    | none => simp only [bootstrapFromStorage, hl]; exact ih
    | some s =>
      simp only [bootstrapFromStorage, hl]
      intro hd
      rcases hd with hd | hd <;> simp [activateReady, notifyState] at hd
  | timeoutStep method id hmem => exact ih
  | handleStep d ev =>
    intro hd
    rw [(handleIncomingEvent_preserves d m ev).2]
    exact ih (by rwa [(handleIncomingEvent_preserves d m ev).1] at hd)
  | capStep method params id =>
    intro hd
    rw [(capabilityStart_preserves method params id m).2]
    exact ih (by rwa [(capabilityStart_preserves method params id m).1] at hd)

/-- C7 counterexample: a reachable manager in the `Connecting` state
(`connect()` re-issued from `Ready`) still holds the previous session, so
`sign` does NOT fail with NotPaired and a `sign_event` request IS sent on
the transport — the claim's gate is on session presence, not on the
state machine. -/
theorem capability_sends_while_connecting_cex :
    mStale.state = .connecting ∧
    (∃ s, mStale.session = some s) ∧
    (capabilityStart "sign_event" ["payload"] "i4" mStale).2.2 = none ∧
    (capabilityStart "sign_event" ["payload"] "i4" mStale).2.1.sends =
      [("sign_event", ["payload"])] :=
  ⟨rfl, ⟨_, rfl⟩, rfl, rfl⟩

/-- C7 amended: every capability operation fails with NotPaired and
sends nothing exactly when no session is in memory.  In every reachable
`Idle` or `Error` state the session is indeed absent, so those states
always fail with NotPaired; but `Connecting` entered from `Ready` keeps
the old session in memory and the operation proceeds over it (see the
counterexample). -/
theorem notPaired_iff_no_session :
    (∀ (method : String) (params : List String) (id : String) (m : Manager),
        m.session = none →
        capabilityStart method params id m = (m, Eff.nil, some "Remote signer not paired")) ∧
    (∀ m : Manager, m.session = none →
        adapterGetPublicKey m = .error "Remote signer not paired") ∧
    (∀ (slot : Option StoredBlob) (m : Manager), Reachable slot m →
        (m.state = .idle ∨ m.state = .error) → m.session = none) := by
  refine ⟨?_, ?_, ?_⟩
  · intro method params id m h
    unfold capabilityStart
    rw [h]
  · intro m h
    unfold adapterGetPublicKey
    rw [h]
  · intro slot m hr
    unfold Reachable at hr
    induction hr with
    | refl => intro _; rfl
    | tail h1 h2 ih => exact step_preserves_noSession h2 ih

/-- Witness for the amended C7: a fresh manager (no session) rejects a
sign request with NotPaired and sends nothing. -/
theorem notPaired_iff_no_session_witness :
    capabilityStart "sign_event" ["payload"] "w1" (initManager none) =
      (initManager none, Eff.nil, some "Remote signer not paired") ∧
    (initManager none).session = none :=
  ⟨(notPaired_iff_no_session).1 "sign_event" ["payload"] "w1" (initManager none) rfl,
   rfl⟩

/-! ## C8 — string lemmas for the parser round trip -/

/-- Splitting off the Bool components of `urlPlainChar`. -/
theorem urlPlain_spec {c : Char} (h : urlPlainChar c = true) :
    c ≠ '&' ∧ c ≠ '=' ∧ c ≠ '%' ∧ c ≠ '+' ∧ c ≠ '?' ∧ isWsChar c = false := by
  simp only [urlPlainChar, Bool.and_eq_true, Bool.not_eq_true', Bool.or_eq_false_iff,
    beq_eq_false_iff_ne] at h
  exact ⟨h.1.1.1.1.1, h.1.1.1.1.2, h.1.1.1.2, h.1.1.2, h.1.2, h.2⟩

/-- `dropWhile` does nothing when nothing satisfies the test. -/
theorem dropWhile_eq_self_of_none {l : List Char} (h : ∀ c ∈ l, isWsChar c = false) :
    l.dropWhile isWsChar = l := by
  cases l with
  | nil => rfl
  | cons a as => simp [List.dropWhile_cons, h a (by simp)]

/-- Trimming a string with no whitespace is the identity. -/
theorem trimChars_eq_self {l : List Char} (h : ∀ c ∈ l, isWsChar c = false) :
    trimChars l = l := by
  unfold trimChars
  rw [dropWhile_eq_self_of_none h,
      dropWhile_eq_self_of_none (fun c hc => h c (List.mem_reverse.mp hc)),
      List.reverse_reverse]

/-- A list is a prefix (in the Boolean sense) of itself followed by
anything. -/
theorem isPrefixOf_append (a b : List Char) : a.isPrefixOf (a ++ b) = true := by
  induction a with
  | nil => simp [List.isPrefixOf]
  | cons x xs ih => simp [List.isPrefixOf, ih]

/-- Splitting a separator-free list yields a single segment. -/
theorem splitOnChar_not_mem {sep : Char} {l : List Char} (h : sep ∉ l) :
    splitOnChar sep l = [l] := by
  induction l with
  | nil => rfl
  | cons c rest ih =>
    have hc : ¬(c = sep) := fun hh => h (by simp [hh])
    have hr : sep ∉ rest := fun hh => h (List.mem_cons_of_mem _ hh)
    simp [splitOnChar, hc, ih hr]

/-- Splitting peels off a separator-free head segment. -/
theorem splitOnChar_append {sep : Char} {a : List Char} (b : List Char) (h : sep ∉ a) :
    splitOnChar sep (a ++ sep :: b) = a :: splitOnChar sep b := by
  induction a with
  | nil => simp [splitOnChar]
  | cons c rest ih =>
    have hc : ¬(c = sep) := fun hh => h (by simp [hh])
    have hr : sep ∉ rest := fun hh => h (List.mem_cons_of_mem _ hh)
    simp [splitOnChar, hc, ih hr]

/-- `splitOnChar` inverts `joinSep` on non-empty lists of separator-free
segments. -/
theorem splitOnChar_joinSep {sep : Char} {ps : List (List Char)} (hne : ps ≠ [])
    (h : ∀ p ∈ ps, sep ∉ p) :
    splitOnChar sep (joinSep sep ps) = ps := by
  induction ps with
  | nil => exact absurd rfl hne
  | cons p rest ih =>
    cases rest with
    | nil => simp [joinSep, splitOnChar_not_mem (h p (by simp))]
    | cons q rest2 =>
      rw [show joinSep sep (p :: q :: rest2) = p ++ sep :: joinSep sep (q :: rest2) from rfl,
          splitOnChar_append _ (h p (by simp)),
          ih (by simp) (fun r hr => h r (List.mem_cons_of_mem _ hr))]

/-- The form decoder is the identity on escape-free input. -/
theorem pctDecode_eq_self {l : List Char} (h : ∀ c ∈ l, c ≠ '%' ∧ c ≠ '+') :
    pctDecode l = l := by
  induction l with
  | nil => rfl
  | cons c rest ih =>
    have hc := h c (by simp)
    unfold pctDecode
    simp [hc.1, hc.2, ih (fun d hd => h d (List.mem_cons_of_mem _ hd))]

/-- Membership in a joined list comes from the separator or a segment. -/
theorem mem_joinSep {sep : Char} {ps : List (List Char)} {c : Char}
    (h : c ∈ joinSep sep ps) : c = sep ∨ ∃ p ∈ ps, c ∈ p := by
  induction ps with
  | nil => simp [joinSep] at h
  | cons p rest ih =>
    cases rest with
    | nil => exact Or.inr ⟨p, by simp, by simpa [joinSep] using h⟩
    | cons q rest2 =>
      rw [show joinSep sep (p :: q :: rest2) = p ++ sep :: joinSep sep (q :: rest2)
          from rfl] at h
      rcases List.mem_append.mp h with h1 | h2
      · exact Or.inr ⟨p, by simp, h1⟩
      · rcases List.mem_cons.mp h2 with h3 | h4
        · exact Or.inl h3
        · rcases ih h4 with h5 | ⟨r, hr, hcr⟩
          · exact Or.inl h5
          · exact Or.inr ⟨r, List.mem_cons_of_mem _ hr, hcr⟩

/-- A `relay=<r>` segment parses to the key "relay" and the verbatim
value `r` when `r` is plain. -/
theorem queryPiece_relayKV {r : List Char} (h1 : r ≠ [])
    (h2 : ∀ c ∈ r, urlPlainChar c = true) :
    queryPiece (relayKV r) = some ("relay".data, r) := by
  have heq : '=' ∉ r := fun hm => (urlPlain_spec (h2 _ hm)).2.1 rfl
  have hsplit : splitOnChar '=' (relayKV r) = ["relay".data, r] := by
    rw [show relayKV r = "relay".data ++ '=' :: r from rfl,
        splitOnChar_append _ (by decide), splitOnChar_not_mem heq]
  have hdec : pctDecode r = r :=
    pctDecode_eq_self fun c hc =>
      ⟨(urlPlain_spec (h2 _ hc)).2.2.1, (urlPlain_spec (h2 _ hc)).2.2.2.1⟩
  unfold queryPiece
  rw [if_neg (by simp [relayKV]), hsplit]
  simp only [joinSep, hdec]
  rw [show pctDecode "relay".data = "relay".data from by decide]

/-- The query of a bunker URI built from plain relays parses to exactly
one `relay` entry per relay, in order, verbatim. -/
theorem filterMap_queryPiece_relays {relays : List (List Char)}
    (hr : ∀ r ∈ relays, r ≠ [] ∧ ∀ c ∈ r, urlPlainChar c = true) :
    (relays.map relayKV).filterMap queryPiece =
      relays.map fun r => ("relay".data, r) := by
  induction relays with
  | nil => rfl
  | cons r rest ih =>
    have h1 := hr r (by simp)
    rw [List.map_cons, List.filterMap_cons, queryPiece_relayKV h1.1 h1.2,
        List.map_cons, ih (fun q hq => hr q (List.mem_cons_of_mem _ hq))]

/-- `parseQuery` of the joined relay segments. -/
theorem parseQuery_relays {relays : List (List Char)}
    (hr : ∀ r ∈ relays, r ≠ [] ∧ ∀ c ∈ r, urlPlainChar c = true) :
    parseQuery (joinSep '&' (relays.map relayKV)) =
      relays.map fun r => ("relay".data, r) := by
  cases relays with
  | nil => rfl
  | cons r0 rest =>
    unfold parseQuery
    rw [splitOnChar_joinSep (by simp) ?_, filterMap_queryPiece_relays hr]
    intro p hp
    rcases List.mem_map.mp hp with ⟨r, hrm, hre⟩
    subst hre
    intro hmem
    rcases List.mem_append.mp hmem with hh | hh
    · revert hh
      decide
    · exact (urlPlain_spec ((hr r hrm).2 _ hh)).1 rfl

/-- `getAll` over a constant-key association list returns all values. -/
theorem getAllQ_const (key : List Char) (vs : List (List Char)) :
    getAllQ key (vs.map fun v => (key, v)) = vs := by
  induction vs with
  | nil => rfl
  | cons v rest ih =>
    unfold getAllQ at ih ⊢
    simp only [List.map_cons, List.filter_cons, beq_self_eq_true, if_true]
    simpa using ih

/-- `get` of a key that never occurs returns null. -/
theorem getQ_absent {key : List Char} (vs : List (List Char))
    (hk : (("relay".data == key) : Bool) = false) :
    getQ key (vs.map fun v => ("relay".data, v)) = none := by
  induction vs with
  | nil => rfl
  | cons v rest ih =>
    unfold getQ at ih ⊢
    simp only [List.map_cons, List.find?_cons, hk]
    simpa using ih

/-- Trimming and truthiness-filtering the parsed relay values is the
identity on non-empty whitespace-free relays. -/
theorem map_trim_filter_id {relays : List (List Char)}
    (hr : ∀ r ∈ relays, r ≠ [] ∧ ∀ c ∈ r, urlPlainChar c = true) :
    ((relays.map trimChars).filter fun r => !r.isEmpty) = relays := by
  induction relays with
  | nil => rfl
  | cons r rest ih =>
    have h1 := hr r (by simp)
    have htr : trimChars r = r :=
      trimChars_eq_self fun c hc => (urlPlain_spec (h1.2 c hc)).2.2.2.2.2
    have hemp : r.isEmpty = false := by
      cases hrr : r with
      | nil => exact absurd hrr h1.1
      | cons c cs => rfl
    rw [List.map_cons, htr, List.filter_cons]
    simp only [hemp, Bool.not_false, if_true]
    rw [ih (fun q hq => hr q (List.mem_cons_of_mem _ hq))]

/-- Lift a decidable all-chars check to membership. -/
theorem all_not_ws {l : List Char} (h : (l.all fun c => !(isWsChar c)) = true) :
    ∀ c ∈ l, isWsChar c = false := by
  intro c hc
  simpa using List.all_eq_true.mp h c hc

/-- C8 amended: for every first-scheme (bunker) pairing URI whose
64-character remote identity key and non-empty endpoint addresses are
built from plain URI characters, parsing succeeds and the returned
Connection Descriptor carries the endpoint list verbatim and the remote
identity key lowercased (the same key value, case-normalized — not the
same string when the URI spells it in uppercase). -/
theorem parse_bunker_echoes_descriptor (pk : List Char) (relays : List (List Char))
    (hlen : pk.length = 64)
    (hpk : ∀ c ∈ pk, urlPlainChar c = true)
    (hne : relays ≠ [])
    (hr : ∀ r ∈ relays, r ≠ [] ∧ ∀ c ∈ r, urlPlainChar c = true) :
    parseRemoteSignerUri ⟨bunkerUriOf pk relays⟩ =
      .ok { remotePubkey := ⟨pk.map asciiLower⟩,
            relays := relays.map fun r => (⟨r⟩ : String),
            secret := none, permissions := none, label := none } := by
  have hne0 : ¬(bunkerUriOf pk relays = []) := by simp [bunkerUriOf]
  have hassoc : bunkerUriOf pk relays =
      "bunker://".data ++ (pk ++ '?' :: joinSep '&' (relays.map relayKV)) := by
    simp [bunkerUriOf]
  have hwsAll : ∀ c ∈ bunkerUriOf pk relays, isWsChar c = false := by
    intro c hc
    rw [hassoc] at hc
    rcases List.mem_append.mp hc with h1 | h2
    · exact all_not_ws (by decide) c h1
    · rcases List.mem_append.mp h2 with h3 | h4
      · exact (urlPlain_spec (hpk c h3)).2.2.2.2.2
      · rcases List.mem_cons.mp h4 with h5 | h6
        · subst h5; decide
        · rcases mem_joinSep h6 with h7 | ⟨p, hp, hcp⟩
          · subst h7; decide
          · rcases List.mem_map.mp hp with ⟨r, hrm, hre⟩
            subst hre
            rcases List.mem_append.mp hcp with h8 | h9
            · exact all_not_ws (by decide) c h8
            · exact (urlPlain_spec ((hr r hrm).2 c h9)).2.2.2.2.2
  have htrim : trimChars (bunkerUriOf pk relays) = bunkerUriOf pk relays :=
    trimChars_eq_self hwsAll
  have hpref : ("bunker://".data).isPrefixOf (bunkerUriOf pk relays) = true := by
    rw [hassoc]
    exact isPrefixOf_append _ _
  have hdrop : (bunkerUriOf pk relays).drop 9 =
      pk ++ '?' :: joinSep '&' (relays.map relayKV) := by
    rw [hassoc, show (9 : Nat) = ("bunker://".data).length from rfl, List.drop_left]
  have hq1 : '?' ∉ pk := fun hm => (urlPlain_spec (hpk _ hm)).2.2.2.2.1 rfl
  have hq2 : '?' ∉ joinSep '&' (relays.map relayKV) := by
    intro hm
    rcases mem_joinSep hm with h7 | ⟨p, hp, hcp⟩
    · exact absurd h7 (by decide)
    · rcases List.mem_map.mp hp with ⟨r, hrm, hre⟩
      subst hre
      rcases List.mem_append.mp hcp with h8 | h9
      · revert h8; decide
      · exact (urlPlain_spec ((hr r hrm).2 _ h9)).2.2.2.2.1 rfl
  have hsplit : splitOnChar '?' (pk ++ '?' :: joinSep '&' (relays.map relayKV)) =
      [pk, joinSep '&' (relays.map relayKV)] := by
    rw [splitOnChar_append _ hq1, splitOnChar_not_mem hq2]
  have hQr := parseQuery_relays hr
  have hgall : getAllQ "relay".data (relays.map fun r => ("relay".data, r)) = relays :=
    getAllQ_const _ _
  have hfil : ((relays.map trimChars).filter fun r => !r.isEmpty) = relays :=
    map_trim_filter_id hr
  have hrelne : relays.isEmpty = false := by
    cases relays with
    | nil => exact absurd rfl hne
    | cons a l => rfl
  have hsec : getQ "secret".data (relays.map fun r => ("relay".data, r)) = none :=
    getQ_absent _ (by decide)
  have hnam : getQ "name".data (relays.map fun r => ("relay".data, r)) = none :=
    getQ_absent _ (by decide)
  have hlab : getQ "label".data (relays.map fun r => ("relay".data, r)) = none :=
    getQ_absent _ (by decide)
  show parseCore (bunkerUriOf pk relays) = _
  simp [parseCore, hne0, htrim, hpref, hdrop, hsplit, hQr, hgall, hfil, hrelne,
    hsec, hnam, hlab, hlen, orUndefC, lowerStr]

/-- Witness for the amended C8: an uppercase-hex key and one endpoint. -/
theorem parse_bunker_echoes_descriptor_witness :
    parseRemoteSignerUri
        ⟨bunkerUriOf
          ("AAAAAAAAAAAAAAAAAAAAAAAAAAAAAAAAAAAAAAAAAAAAAAAAAAAAAAAAAAAAAAAA".data)
          [("wss://r.example".data)]⟩ =
      .ok { remotePubkey :=
              ⟨"AAAAAAAAAAAAAAAAAAAAAAAAAAAAAAAAAAAAAAAAAAAAAAAAAAAAAAAAAAAAAAAA".data.map
                asciiLower⟩,
            relays := [("wss://r.example".data)].map fun r => (⟨r⟩ : String),
            secret := none, permissions := none, label := none } :=
  parse_bunker_echoes_descriptor
    ("AAAAAAAAAAAAAAAAAAAAAAAAAAAAAAAAAAAAAAAAAAAAAAAAAAAAAAAAAAAAAAAA".data)
    [("wss://r.example".data)] (by decide) (by decide) (by decide) (by decide)

/-- C8 counterexample: a valid bunker URI whose canonical-length remote
identity key is spelled in uppercase hex parses successfully, but the
returned descriptor does not contain the same key string that appears in
the URI — the key is lowercased. -/
theorem parse_lowercases_remote_key_cex :
    parseRemoteSignerUri uriUpper =
      Except.ok
        { remotePubkey := "aaaaaaaaaaaaaaaaaaaaaaaaaaaaaaaaaaaaaaaaaaaaaaaaaaaaaaaaaaaaaaaa",
          relays := ["wss://r.example"], secret := none, permissions := none,
          label := none } ∧
    ("aaaaaaaaaaaaaaaaaaaaaaaaaaaaaaaaaaaaaaaaaaaaaaaaaaaaaaaaaaaaaaaa" : String) ≠
      "AAAAAAAAAAAAAAAAAAAAAAAAAAAAAAAAAAAAAAAAAAAAAAAAAAAAAAAAAAAAAAAA" :=
  ⟨rfl, by decide⟩

end GittrRemoteSigner
